import Mathlib

/-!
Verification development for the rgs repository (a regulated gambling
backend).  The Go source is shallowly embedded: pure functions become Lean
functions, the wallet and game-engine database state becomes an explicit
state record threaded through the operations, machine int64 arithmetic is
modelled on Int (no operation here approaches the 2^63 overflow boundary:
balances and wagers are minor currency units), and fallible Go functions
return Except values.
-/

namespace Rgs

/-! ## Domain model (src/unnamed/part_007, package domain) -/

/-- Money: integer amount in minor units plus an ISO currency code. -/
structure Money where
  Amount : Int
  Currency : String
deriving DecidableEq

/-- Money.Add from the source: adds the amounts and keeps the receiver
currency; the other currency is ignored and no error is possible. -/
def Money.Add (m other : Money) : Money :=
  { Amount := m.Amount + other.Amount, Currency := m.Currency }

/-- Money.Sub from the source: subtracts the amounts and keeps the receiver
currency; the other currency is ignored and no error is possible. -/
def Money.Sub (m other : Money) : Money :=
  { Amount := m.Amount - other.Amount, Currency := m.Currency }

/-- Modelled from the spec: the Money arithmetic the spec describes, which
fails with a CurrencyMismatch error when the two currency codes differ.
This is the refinement target the source Money.Add is compared against
(the repository docs declare this signature, src/docs/TECHNICAL_SPECIFICATION.md). -/
def Money.addChecked (m other : Money) : Except String Money :=
  if m.Currency ≠ other.Currency then .error "CurrencyMismatch"
  else .ok { Amount := m.Amount + other.Amount, Currency := m.Currency }

inductive TransactionType where
  | deposit | withdrawal | wager | win | bonus | adjustment | refund | jackpot
deriving DecidableEq

inductive TransactionStatus where
  | pending | completed | failed | cancelled
deriving DecidableEq

/-- Ledger transaction row (ids and timestamps are elided: the claims never
inspect them). -/
structure Transaction where
  txType : TransactionType
  amount : Money
  balanceBefore : Money
  balanceAfter : Money
  status : TransactionStatus
  reference : String
deriving DecidableEq

/-! ## Wallet service (src/unnamed/part_004, package wallet)

The balances table row of a single player: real-money part and bonus part.
Every wallet operation reads this row, validates, and either fails leaving
it unchanged or returns the updated row together with the transaction row
appended in the same atomic unit. -/

structure BalanceRow where
  real : Money
  bonus : Money
deriving DecidableEq

inductive WalletErr where
  | insufficientFunds | invalidAmount | playerNotFound
deriving DecidableEq

/-- GetBalance result: Available is RealMoney.Add(Bonus). -/
structure Balance where
  RealMoney : Money
  BonusBalance : Money
  Available : Money
deriving DecidableEq

/-- Service.GetBalance: reads the balances row and computes Available. -/
def GetBalance (b : BalanceRow) : Balance :=
  { RealMoney := b.real, BonusBalance := b.bonus, Available := b.real.Add b.bonus }

/-- Service.Deposit: rejects amount ≤ 0 with InvalidAmount, otherwise adds
the amount to RealMoney and records a completed deposit transaction. -/
def Deposit (b : BalanceRow) (amount : Money) (reference : String) :
    Except WalletErr (BalanceRow × Transaction) :=
  if amount.Amount ≤ 0 then .error .invalidAmount
  else
    let balance := GetBalance b
    let newBalance := balance.RealMoney.Add amount
    .ok ({ b with real := newBalance },
      { txType := .deposit, amount := amount, balanceBefore := balance.RealMoney,
        balanceAfter := newBalance, status := .completed, reference := reference })

/-- Service.PlaceWager: rejects amount ≤ 0 with InvalidAmount, rejects
Available < amount with InsufficientFunds, otherwise debits RealMoney and
records a completed wager transaction referencing the cycle id. -/
def PlaceWager (b : BalanceRow) (amount : Money) (cycleID : String) :
    Except WalletErr (BalanceRow × Transaction) :=
  if amount.Amount ≤ 0 then .error .invalidAmount
  else
    let balance := GetBalance b
    if balance.Available.Amount < amount.Amount then .error .insufficientFunds
    else
      let newBalance := balance.RealMoney.Sub amount
      .ok ({ b with real := newBalance },
        { txType := .wager, amount := amount, balanceBefore := balance.RealMoney,
          balanceAfter := newBalance, status := .completed, reference := cycleID })

/-- Service.CreditWin: rejects a negative amount with InvalidAmount, treats
a zero amount as a no-op returning no transaction, otherwise credits
RealMoney and records a completed win transaction referencing the cycle id. -/
def CreditWin (b : BalanceRow) (amount : Money) (cycleID : String) :
    Except WalletErr (BalanceRow × Option Transaction) :=
  if amount.Amount < 0 then .error .invalidAmount
  else if amount.Amount = 0 then .ok (b, none)
  else
    let balance := GetBalance b
    let newBalance := balance.RealMoney.Add amount
    .ok ({ b with real := newBalance },
      some { txType := .win, amount := amount, balanceBefore := balance.RealMoney,
             balanceAfter := newBalance, status := .completed, reference := cycleID })

/-- Service.GetTransactions limit handling: a non-positive limit is replaced
by 50; a positive limit is passed to the SQL LIMIT clause unchanged. -/
def effectiveLimit (limit : Int) : Int :=
  if limit ≤ 0 then 50 else limit

/-- Service.GetTransactions: returns at most effectiveLimit rows of the
player transaction log (modelled as the list already ordered by the query). -/
def GetTransactions (txs : List Transaction) (limit : Int) : List Transaction :=
  txs.take (effectiveLimit limit).toNat

/-! ## RNG service (src/internal/rng/rng.go)

GenerateInt draws 8 entropy bytes at a time, keeps the low 63 bits of the
big-endian value, and rejection-samples.  The entropy stream is modelled as
the list of successive 63-bit draws (each strictly below 2^63); running out
of the list models an entropy-read failure.  Each operation returns its
result together with the draws it has not consumed. -/

inductive RngErr where
  | invalidRange | entropyUnavailable
deriving DecidableEq

/-- The largest 63-bit value, uint64(1 shifted left 63 times minus 1). -/
def rngMax63 : Nat := 2 ^ 63 - 1

/-- The rejection threshold of Service.GenerateInt:
rngMax63 minus rngMax63 mod max. -/
def rngThreshold (max : Int) : Nat :=
  rngMax63 - rngMax63 % max.toNat

/-- The rejection loop of Service.GenerateInt: accept the first draw below
the threshold and return it reduced mod max; reject and redraw otherwise. -/
def generateIntLoop (max : Int) : List Nat → Except RngErr Int × List Nat
  | [] => (.error .entropyUnavailable, [])
  | n :: rest =>
    if n < rngThreshold max then (.ok ((n % max.toNat : Nat) : Int), rest)
    else generateIntLoop max rest

/-- Service.GenerateInt: rejects max ≤ 0 before reading any entropy,
otherwise rejection-samples over the draw stream. -/
def GenerateInt (max : Int) (draws : List Nat) : Except RngErr Int × List Nat :=
  if max ≤ 0 then (.error .invalidRange, draws)
  else generateIntLoop max draws

/-! Service.SelectWeighted works on float64 weights; floats are modelled as
exact rationals, which preserves the control flow the claims are about (the
index bound does not depend on rounding).  The draw r stands for the
GenerateFloat result and is left arbitrary, which also covers the values
float rounding can produce. -/

inductive WeightsErr where
  | emptyWeights | negativeWeight | nonpositiveTotal | rng (e : RngErr)
deriving DecidableEq

/-- The total-weight loop of Service.SelectWeighted: fails at the first
negative weight, otherwise accumulates the sum. -/
def sumWeights : List ℚ → Except WeightsErr ℚ
  | [] => .ok 0
  | w :: rest =>
    if w < 0 then .error .negativeWeight
    else
      match sumWeights rest with
      | .error e => .error e
      | .ok t => .ok (w + t)

/-- The cumulative-sum walk of Service.SelectWeighted: return the first
index whose cumulative sum strictly exceeds the target. -/
def selectLoop (target : ℚ) : List ℚ → ℚ → Nat → Option Nat
  | [], _, _ => none
  | w :: rest, cumulative, i =>
    if target < cumulative + w then some i
    else selectLoop target rest (cumulative + w) (i + 1)

/-- Service.SelectWeighted: validates the weights, scales the draw r by the
total, walks cumulative sums, and falls back to the last index when the
walk finds no index. -/
def SelectWeighted (weights : List ℚ) (r : ℚ) : Except WeightsErr Nat :=
  if weights.isEmpty then .error .emptyWeights
  else
    match sumWeights weights with
    | .error e => .error e
    | .ok total =>
      if total ≤ 0 then .error .nonpositiveTotal
      else
        let target := r * total
        match selectLoop target weights 0 0 with
        | some i => .ok i
        | none => .ok (weights.length - 1)

/-! ## Slot game (src/internal/game/slots.go)

Symbol is a Go string type; it is modelled directly as String.  The
paytable is a Go map with literal string keys, modelled as an association
list looked up by key. -/

/-- The nine reel symbols of Fortune Slots. -/
def slotSymbols : List String :=
  ["7", "BAR", "CHERRY", "BELL", "LEMON", "ORANGE", "PLUM", "GRAPES", "WILD"]

/-- The three weighted reels of Fortune Slots (21, 22 and 23 positions). -/
def fortuneSlotsReels : List (List String) :=
  [ ["CHERRY", "LEMON", "ORANGE", "PLUM", "GRAPES", "BELL", "BAR", "7", "WILD",
     "CHERRY", "LEMON", "ORANGE", "PLUM", "GRAPES", "BELL", "BAR",
     "CHERRY", "LEMON", "ORANGE", "PLUM", "GRAPES"],
    ["CHERRY", "LEMON", "ORANGE", "PLUM", "GRAPES", "BELL", "BAR", "7", "WILD",
     "CHERRY", "LEMON", "ORANGE", "PLUM", "GRAPES", "BELL", "BAR",
     "CHERRY", "LEMON", "ORANGE", "PLUM", "GRAPES", "BELL"],
    ["CHERRY", "LEMON", "ORANGE", "PLUM", "GRAPES", "BELL", "BAR", "7", "WILD",
     "CHERRY", "LEMON", "ORANGE", "PLUM", "GRAPES", "BELL", "BAR",
     "CHERRY", "LEMON", "ORANGE", "PLUM", "GRAPES", "BELL", "BAR"] ]

/-- The Fortune Slots paytable: payout per unit bet in cents, keyed by the
joined symbol string. -/
def fortuneSlotsPaytable : List (String × Int) :=
  [ ("7-7-7", 5000),
    ("WILD-WILD-WILD", 2500),
    ("BAR-BAR-BAR", 1000),
    ("BELL-BELL-BELL", 500),
    ("GRAPES-GRAPES-GRAPES", 300),
    ("PLUM-PLUM-PLUM", 200),
    ("ORANGE-ORANGE-ORANGE", 150),
    ("LEMON-LEMON-LEMON", 100),
    ("CHERRY-CHERRY-CHERRY", 80),
    ("CHERRY-CHERRY-*", 20),
    ("CHERRY-*-*", 10) ]

/-- Go map read: value for a key of the paytable, if present. -/
def paytableLookup (key : String) : Option Int :=
  fortuneSlotsPaytable.lookup key

structure WinLine where
  Line : Nat
  Symbols : List String
  Count : Nat
  Payout : Int
deriving DecidableEq

structure SlotOutcome where
  Reels : List String
  WinLines : List WinLine
  Multiplier : Int
  IsWin : Bool
deriving DecidableEq

/-- Engine.evaluateWins: exact three-symbol key first, then the
wild-substitution branch, then the two cherry fallback branches, each
early-returning its single win line; the fall-through result is empty. -/
def evaluateWins (reels : List String) : List WinLine :=
  if reels.length < 3 then []
  else
    let s1 := reels.getD 0 ""
    let s2 := reels.getD 1 ""
    let s3 := reels.getD 2 ""
    match paytableLookup (s1 ++ "-" ++ s2 ++ "-" ++ s3) with
    | some payout => [{ Line := 1, Symbols := [s1, s2, s3], Count := 3, Payout := payout }]
    | none =>
      let wildHit : Option WinLine :=
        if (s1 == s2 && (s3 == "WILD" || s3 == s1)) ||
           (s2 == s3 && (s1 == "WILD" || s1 == s2)) ||
           (s1 == s3 && (s2 == "WILD" || s2 == s1)) then
          let baseSymbol := (([s1, s2, s3].find? (fun s => s != "WILD")).getD "")
          if baseSymbol != "" then
            match paytableLookup (baseSymbol ++ "-" ++ baseSymbol ++ "-" ++ baseSymbol) with
            | some payout =>
              some { Line := 1, Symbols := [s1, s2, s3], Count := 3, Payout := payout }
            | none => none
          else none
        else none
      match wildHit with
      | some wl => [wl]
      | none =>
        let cherryTwo : Option WinLine :=
          if s1 == "CHERRY" && s2 == "CHERRY" then
            (paytableLookup "CHERRY-CHERRY-*").map
              (fun payout => { Line := 1, Symbols := [s1, s2, s3], Count := 2, Payout := payout })
          else none
        match cherryTwo with
        | some wl => [wl]
        | none =>
          if s1 == "CHERRY" then
            match paytableLookup "CHERRY-*-*" with
            | some payout =>
              [{ Line := 1, Symbols := [s1, s2, s3], Count := 1, Payout := payout }]
            | none => []
          else []

/-- Engine.calculateWin: zero for a non-winning outcome, otherwise the sum
over win lines of payout times wager divided by the 100-cent unit stake,
with Go integer division (truncation toward zero, Int.tdiv). -/
def calculateWin (outcome : SlotOutcome) (wager : Money) : Money :=
  if !outcome.IsWin || outcome.WinLines.isEmpty then
    { Amount := 0, Currency := wager.Currency }
  else
    { Amount := outcome.WinLines.foldl
        (fun acc line => acc + (line.Payout * wager.Amount).tdiv 100) 0,
      Currency := wager.Currency }

/-- The reel-position loop of Engine.generateSlotOutcome: one GenerateInt
draw per reel, indexing that reel. -/
def drawReels : List (List String) → List Nat → Except RngErr (List String) × List Nat
  | [], draws => (.ok [], draws)
  | reel :: rest, draws =>
    match GenerateInt (reel.length : Int) draws with
    | (.error e, draws1) => (.error e, draws1)
    | (.ok idx, draws1) =>
      match drawReels rest draws1 with
      | (.error e, draws2) => (.error e, draws2)
      | (.ok syms, draws2) => (.ok (reel.getD idx.toNat "" :: syms), draws2)

/-- Engine.generateSlotOutcome: draw one position per reel from the RNG and
evaluate the winning lines (both registered games use the same reels). -/
def generateSlotOutcome (draws : List Nat) : Except RngErr SlotOutcome × List Nat :=
  match drawReels fortuneSlotsReels draws with
  | (.error e, draws1) => (.error e, draws1)
  | (.ok reels, draws1) =>
    let wins := evaluateWins reels
    (.ok { Reels := reels, WinLines := wins, Multiplier := 1, IsWin := !wins.isEmpty },
     draws1)

/-! ## Game engine (src/unnamed/part_002, package game)

The engine state visible to Play is modelled as a single-player World:
the game-session row, the balances row, the transaction log and the
game-cycles table.  The uuid for the new cycle is passed in as a parameter
and the RNG entropy as the draw stream. -/

structure Game where
  id : String
  MinBet : Money
  MaxBet : Money
  Enabled : Bool
deriving DecidableEq

/-- The engine currency used for wagers. -/
def engineCurrency : String := "USD"

/-- Engine.registerGames: the two registered games with their bet limits. -/
def engineGames (gameID : String) : Option Game :=
  if gameID == "fortune-slots" then
    some { id := "fortune-slots", MinBet := { Amount := 10, Currency := engineCurrency },
           MaxBet := { Amount := 10000, Currency := engineCurrency }, Enabled := true }
  else if gameID == "lucky-sevens" then
    some { id := "lucky-sevens", MinBet := { Amount := 25, Currency := engineCurrency },
           MaxBet := { Amount := 5000, Currency := engineCurrency }, Enabled := true }
  else none

inductive SessionStatus where
  | active | completed | interrupted
deriving DecidableEq

structure GameSession where
  gameID : String
  status : SessionStatus
  currentBalance : Int
  totalWagered : Int
  totalWon : Int
  gamesPlayed : Nat
deriving DecidableEq

inductive CycleStatus where
  | pending | inProgress | completed | interrupted | voided
deriving DecidableEq

structure GameCycle where
  id : String
  wagerAmount : Int
  winAmount : Int
  balanceBefore : Int
  balanceAfter : Int
  outcome : SlotOutcome
  status : CycleStatus
deriving DecidableEq

/-- The engine-visible database state for one player. -/
structure World where
  session : Option GameSession
  bal : BalanceRow
  txs : List Transaction
  cycles : List GameCycle
deriving DecidableEq

inductive EngineErr where
  | gameNotFound | gameDisabled | sessionNotFound | sessionNotActive
  | insufficientBalance | invalidWager
  | outcomeFailed (e : RngErr)
  | wallet (e : WalletErr)
deriving DecidableEq

structure PlayResult where
  CycleID : String
  Outcome : SlotOutcome
  WagerAmount : Money
  WinAmount : Money
  BalanceAfter : Money
deriving DecidableEq

/-- Engine.Play: session and game validation, wager-range check, fast-fail
balance check, wager debit through the wallet, outcome generation with the
compensating win-typed refund on failure (the refund result is discarded,
as in the source), win credit, cycle insert and session-stats update. -/
def Play (w : World) (wagerAmount : Int) (cycleID : String) (draws : List Nat) :
    Except EngineErr PlayResult × World :=
  match w.session with
  | none => (.error .sessionNotFound, w)
  | some session =>
    if session.status ≠ SessionStatus.active then (.error .sessionNotActive, w)
    else
      match engineGames session.gameID with
      | none => (.error .gameNotFound, w)
      | some game =>
        if !game.Enabled then (.error .gameDisabled, w)
        else
          let wager : Money := { Amount := wagerAmount, Currency := engineCurrency }
          if wager.Amount < game.MinBet.Amount ∨ wager.Amount > game.MaxBet.Amount then
            (.error .invalidWager, w)
          else
            let balance := GetBalance w.bal
            if balance.Available.Amount < wager.Amount then
              (.error .insufficientBalance, w)
            else
              match PlaceWager w.bal wager cycleID with
              | .error e => (.error (.wallet e), w)
              | .ok (bal1, wagerTx) =>
                let w1 : World := { w with bal := bal1, txs := w.txs ++ [wagerTx] }
                match generateSlotOutcome draws with
                | (.error e, _) =>
                  let w2 : World :=
                    match CreditWin bal1 wager cycleID with
                    | .ok (bal2, some refundTx) =>
                      { w1 with bal := bal2, txs := w1.txs ++ [refundTx] }
                    | .ok (bal2, none) => { w1 with bal := bal2 }
                    | .error _ => w1
                  (.error (.outcomeFailed e), w2)
                | (.ok outcome, _) =>
                  let winAmount := calculateWin outcome wager
                  let creditStep : Except WalletErr (BalanceRow × List Transaction) :=
                    if winAmount.Amount > 0 then
                      match CreditWin bal1 winAmount cycleID with
                      | .error e => .error e
                      | .ok (bal2, some winTx) => .ok (bal2, [winTx])
                      | .ok (bal2, none) => .ok (bal2, [])
                    else .ok (bal1, [])
                  match creditStep with
                  | .error e => (.error (.wallet e), w1)
                  | .ok (bal2, winTxs) =>
                    let newBalance := GetBalance bal2
                    let cycle : GameCycle :=
                      { id := cycleID, wagerAmount := wager.Amount,
                        winAmount := winAmount.Amount,
                        balanceBefore := balance.Available.Amount,
                        balanceAfter := newBalance.Available.Amount,
                        outcome := outcome, status := .completed }
                    let session1 : GameSession :=
                      { session with
                        currentBalance := newBalance.Available.Amount,
                        totalWagered := session.totalWagered + wager.Amount,
                        totalWon := session.totalWon + winAmount.Amount,
                        gamesPlayed := session.gamesPlayed + 1 }
                    (.ok { CycleID := cycleID, Outcome := outcome, WagerAmount := wager,
                           WinAmount := winAmount, BalanceAfter := newBalance.Available },
                     { session := some session1, bal := bal2,
                       txs := w1.txs ++ winTxs, cycles := w.cycles ++ [cycle] })

/-! ## Theorems -/

/-- Claim C1.  The claim states PlaceWager never leaves RealMoney negative,
in particular when Available covers the wager but RealMoney alone does not.
The source checks Available but debits RealMoney only, so a player with
RealMoney 0 and Bonus 100 placing a wager of 50 succeeds and is left with
RealMoney -50: the operation succeeds exactly where the claim requires it
to fail, contradicting the repository documentation that a negative balance
is not permitted. -/
theorem placeWager_bonus_drives_real_negative :
    PlaceWager
      { real := { Amount := 0, Currency := "USD" },
        bonus := { Amount := 100, Currency := "USD" } }
      { Amount := 50, Currency := "USD" } "cycle-1" =
    .ok ({ real := { Amount := -50, Currency := "USD" },
           bonus := { Amount := 100, Currency := "USD" } },
         { txType := .wager, amount := { Amount := 50, Currency := "USD" },
           balanceBefore := { Amount := 0, Currency := "USD" },
           balanceAfter := { Amount := -50, Currency := "USD" },
           status := .completed, reference := "cycle-1" }) := by
  rfl

/-- Claim C7.  The claim states Money.Add and Money.Sub fail with a
CurrencyMismatch error on different currencies.  The source Money.Add and
Money.Sub ignore the other operand currency and always succeed, keeping
the receiver currency: adding 50 EUR to 100 USD yields 150 USD with no
error, unlike the checked arithmetic the repository documentation declares. -/
theorem money_arith_ignores_currency :
    Money.Add { Amount := 100, Currency := "USD" } { Amount := 50, Currency := "EUR" } =
      { Amount := 150, Currency := "USD" } ∧
    Money.Sub { Amount := 100, Currency := "USD" } { Amount := 50, Currency := "EUR" } =
      { Amount := 50, Currency := "USD" } ∧
    Money.addChecked { Amount := 100, Currency := "USD" } { Amount := 50, Currency := "EUR" } =
      .error "CurrencyMismatch" := by
  refine ⟨rfl, rfl, ?_⟩
  simp [Money.addChecked]

/-- Claim C8.  CreditWin with amount zero is a no-op returning no
transaction and no error with the balance row unchanged; CreditWin with a
negative amount fails with InvalidAmount; Deposit with amount zero fails
with InvalidAmount. -/
theorem creditWin_zero_vs_deposit_zero (b : BalanceRow) (c cid ref : String) :
    CreditWin b { Amount := 0, Currency := c } cid = .ok (b, none) ∧
    (∀ a : Int, a < 0 →
      CreditWin b { Amount := a, Currency := c } cid = .error .invalidAmount) ∧
    Deposit b { Amount := 0, Currency := c } ref = .error .invalidAmount := by
  refine ⟨?_, ?_, ?_⟩
  · simp [CreditWin]
  · intro a ha
    simp [CreditWin, ha]
  · simp [Deposit]

/-- Witness for claim C8 at a concrete balance row and amounts. -/
theorem creditWin_zero_vs_deposit_zero_witness :
    CreditWin { real := { Amount := 7, Currency := "USD" },
                bonus := { Amount := 0, Currency := "USD" } }
        { Amount := 0, Currency := "USD" } "c1" =
      .ok ({ real := { Amount := 7, Currency := "USD" },
             bonus := { Amount := 0, Currency := "USD" } }, none) ∧
    CreditWin { real := { Amount := 7, Currency := "USD" },
                bonus := { Amount := 0, Currency := "USD" } }
        { Amount := -3, Currency := "USD" } "c1" = .error .invalidAmount ∧
    Deposit { real := { Amount := 7, Currency := "USD" },
              bonus := { Amount := 0, Currency := "USD" } }
        { Amount := 0, Currency := "USD" } "r1" = .error .invalidAmount :=
  ⟨(creditWin_zero_vs_deposit_zero _ "USD" "c1" "r1").1,
   (creditWin_zero_vs_deposit_zero _ "USD" "c1" "r1").2.1 (-3) (by norm_num),
   (creditWin_zero_vs_deposit_zero _ "USD" "c1" "r1").2.2⟩

/-- A concrete transaction row used by counterexamples and witnesses. -/
def sampleTx : Transaction :=
  { txType := .deposit, amount := { Amount := 1, Currency := "USD" },
    balanceBefore := { Amount := 0, Currency := "USD" },
    balanceAfter := { Amount := 1, Currency := "USD" },
    status := .completed, reference := "r" }

/-- Counterexample to claim C9 as stated: there is no fixed bound on the
number of transactions GetTransactions can return, because a positive limit
is passed through uncapped: for any candidate bound B, a log of B+1 rows
queried with limit B+1 returns B+1 rows. -/
theorem getTransactions_unbounded :
    ¬ ∃ B : Nat, ∀ (txs : List Transaction) (limit : Int),
        (GetTransactions txs limit).length ≤ B := by
  rintro ⟨B, h⟩
  have hB := h (List.replicate (B + 1) sampleTx) ((B : Int) + 1)
  have hpos : ¬ ((B : Int) + 1 ≤ 0) := by omega
  simp [GetTransactions, effectiveLimit, hpos, List.length_take] at hB

/-- Claim C9 as amended: a non-positive limit is replaced by the default of
50 and a positive limit is used as-is with no upper cap, so the returned
row count is bounded by max 50 limit but by no constant independent of the
limit argument. -/
theorem getTransactions_limit_spec (txs : List Transaction) (limit : Int) :
    (limit ≤ 0 → GetTransactions txs limit = txs.take 50) ∧
    (0 < limit → GetTransactions txs limit = txs.take limit.toNat) ∧
    (GetTransactions txs limit).length ≤ max 50 limit.toNat := by
  refine ⟨?_, ?_, ?_⟩
  · intro hle
    simp [GetTransactions, effectiveLimit, hle]
  · intro hpos
    simp [GetTransactions, effectiveLimit, not_le.2 hpos]
  · by_cases hle : limit ≤ 0
    · simp only [GetTransactions, effectiveLimit, if_pos hle, List.length_take]
      omega
    · simp only [GetTransactions, effectiveLimit, if_neg hle, List.length_take]
      omega

/-- Witness for the amended claim C9 at concrete logs and limits. -/
theorem getTransactions_limit_spec_witness :
    GetTransactions [sampleTx] (-1) = [sampleTx].take 50 ∧
    GetTransactions [sampleTx] 7 = [sampleTx].take ((7 : Int)).toNat ∧
    (GetTransactions [sampleTx] 7).length ≤ max 50 ((7 : Int)).toNat :=
  ⟨(getTransactions_limit_spec [sampleTx] (-1)).1 (by norm_num),
   (getTransactions_limit_spec [sampleTx] 7).2.1 (by norm_num),
   (getTransactions_limit_spec [sampleTx] 7).2.2⟩

/-- Any value the rejection loop accepts lies in the interval zero to max. -/
theorem generateIntLoop_ok_range (max : Int) (hmax : 0 < max) :
    ∀ (draws : List Nat) (v : Int) (rest : List Nat),
      generateIntLoop max draws = (.ok v, rest) → 0 ≤ v ∧ v < max := by
  intro draws
  induction draws with
  | nil =>
    intro v rest h
    simp [generateIntLoop] at h
  | cons n tail ih =>
    intro v rest h
    rw [generateIntLoop] at h
    by_cases hlt : n < rngThreshold max
    · rw [if_pos hlt] at h
      obtain ⟨hv, -⟩ := Prod.mk.injEq .. ▸ h
      have hv2 : ((n % max.toNat : Nat) : Int) = v := by
        simpa using congrArg (fun x => x.toOption.getD 0) hv
      have htpos : 0 < max.toNat := by omega
      have hmod : n % max.toNat < max.toNat := Nat.mod_lt _ htpos
      constructor
      · omega
      · omega
    · rw [if_neg hlt] at h
      exact ih v rest h

/-- Claim C2.  GenerateInt with max ≤ 0 fails with the invalid-range error
consuming no entropy; with max > 0 the rejection threshold equals
floor of (2^63 - 1) divided by max, times max, every accepted result lies
in the interval zero to max, a draw below the threshold is accepted and
returned reduced mod max, and a draw at or above it is discarded and the
loop continues on the remaining entropy. -/
theorem generateInt_spec (max : Int) :
    (max ≤ 0 → ∀ draws, GenerateInt max draws = (.error .invalidRange, draws)) ∧
    (0 < max →
      rngThreshold max = rngMax63 / max.toNat * max.toNat ∧
      (∀ draws v rest, GenerateInt max draws = (.ok v, rest) → 0 ≤ v ∧ v < max) ∧
      (∀ (n : Nat) (rest : List Nat), n < rngThreshold max →
        GenerateInt max (n :: rest) = (.ok ((n % max.toNat : Nat) : Int), rest)) ∧
      (∀ (n : Nat) (rest : List Nat), rngThreshold max ≤ n →
        GenerateInt max (n :: rest) = GenerateInt max rest)) := by
  constructor
  · intro hle draws
    simp [GenerateInt, hle]
  · intro hpos
    have hnle : ¬ max ≤ 0 := by omega
    refine ⟨?_, ?_, ?_, ?_⟩
    · simp only [rngThreshold]
      have h := Nat.div_add_mod rngMax63 max.toNat
      rw [Nat.mul_comm]
      omega
    · intro draws v rest h
      rw [GenerateInt, if_neg hnle] at h
      exact generateIntLoop_ok_range max hpos draws v rest h
    · intro n rest hlt
      rw [GenerateInt, if_neg hnle, generateIntLoop, if_pos hlt]
    · intro n rest hge
      rw [GenerateInt, if_neg hnle, GenerateInt, if_neg hnle, generateIntLoop,
        if_neg (by omega)]

/-- Witness for claim C2: with max 5 the first draw equals the threshold
and is rejected, the second draw 7 is accepted as 7 mod 5 = 2; max -1 fails
with the invalid-range error leaving the entropy untouched. -/
theorem generateInt_spec_witness :
    GenerateInt 5 [9223372036854775805, 7] = (.ok 2, []) ∧
    GenerateInt (-1) [3] = (.error .invalidRange, [3]) := by
  have h5 := (generateInt_spec 5).2 (by norm_num)
  have hth : rngThreshold 5 = 9223372036854775805 := by decide
  constructor
  · have hrej := h5.2.2.2 9223372036854775805 [7] (by rw [hth])
    have hacc := h5.2.2.1 7 [] (by rw [hth]; norm_num)
    rw [hrej, hacc]
    norm_num
  · exact (generateInt_spec (-1)).1 (by norm_num) [3]

/-- Claim C4.  For a winning outcome carrying a single win line the win
amount is the per-unit payout times the wager divided by 100 with integer
truncation, which for nonnegative payout and wager coincides with the
floor; the currency is the wager currency. -/
theorem calculateWin_single_line (o : SlotOutcome) (wager : Money) (line : WinLine)
    (hwin : o.IsWin = true) (hlines : o.WinLines = [line])
    (hp : 0 ≤ line.Payout) (hw : 0 ≤ wager.Amount) :
    calculateWin o wager =
      { Amount := (line.Payout * wager.Amount).tdiv 100, Currency := wager.Currency } ∧
    (line.Payout * wager.Amount).tdiv 100 = (line.Payout * wager.Amount).fdiv 100 := by
  constructor
  · simp [calculateWin, hwin, hlines]
  · exact (Int.fdiv_eq_tdiv (by positivity) (by norm_num)).symm

/-- Witness for claim C4, the basic-win scenario: reels 7-7-7 at wager 500
with the paytable entry 5000 per unit yield exactly 25000 minor units. -/
theorem calculateWin_single_line_witness :
    calculateWin
      { Reels := ["7", "7", "7"], WinLines := evaluateWins ["7", "7", "7"],
        Multiplier := 1, IsWin := true }
      { Amount := 500, Currency := "USD" } =
    { Amount := 25000, Currency := "USD" } := by
  have h := calculateWin_single_line
    { Reels := ["7", "7", "7"], WinLines := evaluateWins ["7", "7", "7"],
      Multiplier := 1, IsWin := true }
    { Amount := 500, Currency := "USD" }
    { Line := 1, Symbols := ["7", "7", "7"], Count := 3, Payout := 5000 }
    rfl (by decide) (by norm_num) (by norm_num)
  rw [h.1]
  decide

/-- Counterexample to claim C3 as stated, at two explicit inputs with
exactly two wild symbols whose substitution key is a paytable entry while
the exact key misses.  The reels WILD WILD 7 (substituted entry 7-7-7 worth
5000) return no winning line at all, and the reels CHERRY WILD WILD
(substituted entry CHERRY-CHERRY-CHERRY worth 80) instead fall through to
the CHERRY partial rule and pay 10: in neither case does evaluateWins
return the substituted three-of-a-kind payout the claim requires. -/
theorem evaluateWins_two_wilds_not_substituted :
    paytableLookup "7-7-7" = some 5000 ∧
    paytableLookup "WILD-WILD-7" = none ∧
    evaluateWins ["WILD", "WILD", "7"] = [] ∧
    paytableLookup "CHERRY-CHERRY-CHERRY" = some 80 ∧
    paytableLookup "CHERRY-WILD-WILD" = none ∧
    (evaluateWins ["CHERRY", "WILD", "WILD"]).map WinLine.Payout = [10] := by
  refine ⟨by decide, by decide, by decide, by decide, by decide, by decide⟩

/-- Claim C3 as amended: when exactly one of the three reel symbols is the
wild symbol, the two non-wild symbols are equal, the exact key missed the
paytable, and the substituted three-of-a-kind key is a paytable entry, then
evaluateWins returns a single winning line paying that entry, whichever
position the wild occupies.  The two-wild half of the original claim is
dropped: there the substituted payout is not awarded, as the counterexample
shows at two inputs (no line at all, or a later partial-match rule paying
differently). -/
theorem evaluateWins_one_wild_substitution (s : String)
    (hmem : s ∈ slotSymbols) (hwild : s ≠ "WILD") :
    ∃ p : Int,
      paytableLookup (s ++ "-" ++ s ++ "-" ++ s) = some p ∧
      (evaluateWins [s, s, "WILD"]).map WinLine.Payout = [p] ∧
      (evaluateWins [s, "WILD", s]).map WinLine.Payout = [p] ∧
      (evaluateWins ["WILD", s, s]).map WinLine.Payout = [p] := by
  simp only [slotSymbols, List.mem_cons, List.not_mem_nil, or_false] at hmem
  rcases hmem with rfl | rfl | rfl | rfl | rfl | rfl | rfl | rfl | rfl
  · exact ⟨5000, by decide, by decide, by decide, by decide⟩
  · exact ⟨1000, by decide, by decide, by decide, by decide⟩
  · exact ⟨80, by decide, by decide, by decide, by decide⟩
  · exact ⟨500, by decide, by decide, by decide, by decide⟩
  · exact ⟨100, by decide, by decide, by decide, by decide⟩
  · exact ⟨150, by decide, by decide, by decide, by decide⟩
  · exact ⟨200, by decide, by decide, by decide, by decide⟩
  · exact ⟨300, by decide, by decide, by decide, by decide⟩
  · exact absurd rfl hwild

/-- Witness for the amended claim C3 at the symbol 7: one wild in any
position beside two sevens pays the 7-7-7 jackpot entry of 5000. -/
theorem evaluateWins_one_wild_substitution_witness :
    ∃ p : Int,
      paytableLookup ("7" ++ "-" ++ "7" ++ "-" ++ "7") = some p ∧
      (evaluateWins ["7", "7", "WILD"]).map WinLine.Payout = [p] ∧
      (evaluateWins ["7", "WILD", "7"]).map WinLine.Payout = [p] ∧
      (evaluateWins ["WILD", "7", "7"]).map WinLine.Payout = [p] :=
  evaluateWins_one_wild_substitution "7" (by decide) (by decide)

/-- The cumulative-sum walk only ever returns a position of the remaining
list: an index below the start index plus the remaining length. -/
theorem selectLoop_some_lt (target : ℚ) :
    ∀ (ws : List ℚ) (c : ℚ) (i j : Nat),
      selectLoop target ws c i = some j → j < i + ws.length := by
  intro ws
  induction ws with
  | nil =>
    intro c i j h
    simp [selectLoop] at h
  | cons w rest ih =>
    intro c i j h
    rw [selectLoop] at h
    by_cases hlt : target < c + w
    · rw [if_pos hlt] at h
      obtain rfl := Option.some.inj h
      simp
    · rw [if_neg hlt] at h
      have := ih (c + w) (i + 1) j h
      simp only [List.length_cons]
      omega

/-- The total-weight loop succeeds on nonnegative weights and returns
their sum. -/
theorem sumWeights_ok :
    ∀ ws : List ℚ, (∀ w ∈ ws, 0 ≤ w) → sumWeights ws = .ok ws.sum := by
  intro ws
  induction ws with
  | nil => intro _; simp [sumWeights]
  | cons w rest ih =>
    intro h
    have hw : ¬ w < 0 := not_lt.2 (h w (List.mem_cons_self w rest))
    rw [sumWeights, if_neg hw, ih fun x hx => h x (List.mem_cons_of_mem w hx)]
    simp

/-- When the target is at least the running total plus the remaining sum,
the walk falls through without selecting an index. -/
theorem selectLoop_none_of_le (target : ℚ) :
    ∀ (ws : List ℚ) (c : ℚ) (i : Nat), (∀ w ∈ ws, 0 ≤ w) →
      c + ws.sum ≤ target → selectLoop target ws c i = none := by
  intro ws
  induction ws with
  | nil => intro c i _ _; rfl
  | cons w rest ih =>
    intro c i h hle
    have hrest : 0 ≤ rest.sum :=
      List.sum_nonneg fun x hx => h x (List.mem_cons_of_mem w hx)
    have hcw : ¬ target < c + w := by
      simp only [List.sum_cons] at hle
      push_neg
      linarith
    rw [selectLoop, if_neg hcw]
    apply ih (c + w) (i + 1) fun x hx => h x (List.mem_cons_of_mem w hx)
    simp only [List.sum_cons] at hle
    linarith

/-- Claim C10.  On a non-empty weight list with no negative entry and a
positive total, SelectWeighted always returns an index below the list
length, and whenever the scaled draw reaches the total (possible only
through float rounding, since the draw is below one) the fall-through path
returns the last index rather than failing or indexing out of range. -/
theorem selectWeighted_in_range (weights : List ℚ) (r : ℚ)
    (hne : weights ≠ []) (hnn : ∀ w ∈ weights, 0 ≤ w) (hpos : 0 < weights.sum) :
    (∃ i, SelectWeighted weights r = .ok i ∧ i < weights.length) ∧
    (1 ≤ r → SelectWeighted weights r = .ok (weights.length - 1)) := by
  have hlen : 0 < weights.length := List.length_pos.2 hne
  have hie : weights.isEmpty = false := by
    cases weights with
    | nil => exact absurd rfl hne
    | cons a l => rfl
  unfold SelectWeighted
  rw [hie, sumWeights_ok weights hnn]
  simp only [Bool.false_eq_true, if_false, if_neg (not_le.2 hpos)]
  cases hsl : selectLoop (r * weights.sum) weights 0 0 with
  | some i =>
    refine ⟨⟨i, by simp [hsl], ?_⟩, ?_⟩
    · have := selectLoop_some_lt (r * weights.sum) weights 0 0 i hsl
      simpa using this
    · intro hr
      have hge : (0 : ℚ) + weights.sum ≤ r * weights.sum := by
        have := le_mul_of_one_le_left hpos.le hr
        simpa using this
      have hnone := selectLoop_none_of_le (r * weights.sum) weights 0 0 hnn hge
      rw [hnone] at hsl
      cases hsl
  | none => exact ⟨⟨weights.length - 1, by simp [hsl], by omega⟩, fun _ => by simp [hsl]⟩

/-- Witness for claim C10 at weights 1, 2: a mid-range draw selects index
1, and a draw of 2 (only reachable through rounding) falls through to the
last index 1. -/
theorem selectWeighted_in_range_witness :
    (∃ i, SelectWeighted [1, 2] (1 / 2) = .ok i ∧ i < ([1, 2] : List ℚ).length) ∧
    SelectWeighted [1, 2] 2 = .ok (([1, 2] : List ℚ).length - 1) :=
  ⟨(selectWeighted_in_range [1, 2] (1 / 2) (by decide)
      (by intro w hw; fin_cases hw <;> norm_num) (by norm_num)).1,
   (selectWeighted_in_range [1, 2] 2 (by decide)
      (by intro w hw; fin_cases hw <;> norm_num) (by norm_num)).2 (by norm_num)⟩

/-- Claim C6.  A Play call on an active session of an enabled game with a
wager inside the bet limits but exceeding the available balance fails with
InsufficientBalance and leaves the world exactly as it was: the balance is
untouched, no wager transaction is written and no game cycle is created. -/
theorem play_insufficient_balance (w : World) (s : GameSession) (g : Game)
    (a : Int) (cid : String) (draws : List Nat)
    (hs : w.session = some s) (hact : s.status = SessionStatus.active)
    (hg : engineGames s.gameID = some g) (hen : g.Enabled = true)
    (hmin : g.MinBet.Amount ≤ a) (hmax : a ≤ g.MaxBet.Amount)
    (hbal : (GetBalance w.bal).Available.Amount < a) :
    Play w a cid draws = (.error .insufficientBalance, w) := by
  have hmin2 : ¬ (a < g.MinBet.Amount) := not_lt.2 hmin
  have hmax2 : ¬ (a > g.MaxBet.Amount) := not_lt.2 hmax
  unfold Play
  rw [hs]
  simp [hact, hg, hen, hmin2, hmax2, hbal]

/-- An active fortune-slots session with no games played, used by the Play
witnesses. -/
def freshSession : GameSession :=
  { gameID := "fortune-slots", status := .active,
    currentBalance := 0, totalWagered := 0, totalWon := 0, gamesPlayed := 0 }

/-- A world holding an active fortune-slots session and a zero balance. -/
def insolventWorld : World :=
  { session := some freshSession,
    bal := { real := { Amount := 0, Currency := "USD" },
             bonus := { Amount := 0, Currency := "USD" } },
    txs := [], cycles := [] }

/-- The fortune-slots configuration registered by the engine. -/
def fortuneSlotsGame : Game :=
  { id := "fortune-slots", MinBet := { Amount := 10, Currency := engineCurrency },
    MaxBet := { Amount := 10000, Currency := engineCurrency }, Enabled := true }

/-- Witness for claim C6, the insufficient-funds scenario: balance 0 and
wager 100 on an active fortune-slots session with MinBet 10 and MaxBet
10000 fail with InsufficientBalance, the world unchanged. -/
theorem play_insufficient_balance_witness :
    Play insolventWorld 100 "cycle-1" [] =
      (.error .insufficientBalance, insolventWorld) :=
  play_insufficient_balance insolventWorld freshSession fortuneSlotsGame
    100 "cycle-1" [] rfl rfl (by decide) rfl (by decide) (by decide) (by decide)

/-- Claim C5.  When outcome generation fails after the wager debit, Play
credits the wager back through the wallet as a win-typed transaction
referencing the same cycle id and reports the failure: the final world
differs from the initial one only by the wager and refund transaction rows,
so the balance is restored and no game cycle retains a debited wager. -/
theorem play_compensates_on_outcome_failure (w : World) (s : GameSession) (g : Game)
    (a : Int) (cid : String) (draws : List Nat) (e : RngErr)
    (hs : w.session = some s) (hact : s.status = SessionStatus.active)
    (hg : engineGames s.gameID = some g) (hen : g.Enabled = true)
    (hmin : g.MinBet.Amount ≤ a) (hmax : a ≤ g.MaxBet.Amount)
    (hpos : 0 < a)
    (hbal : a ≤ (GetBalance w.bal).Available.Amount)
    (hout : (generateSlotOutcome draws).1 = .error e) :
    ∃ wagerTx refundTx : Transaction,
      Play w a cid draws =
        (.error (.outcomeFailed e), { w with txs := w.txs ++ [wagerTx, refundTx] }) ∧
      wagerTx.txType = .wager ∧ wagerTx.amount.Amount = a ∧ wagerTx.reference = cid ∧
      refundTx.txType = .win ∧ refundTx.amount.Amount = a ∧ refundTx.reference = cid := by
  have hmin2 : ¬ (a < g.MinBet.Amount) := not_lt.2 hmin
  have hmax2 : ¬ (a > g.MaxBet.Amount) := not_lt.2 hmax
  have hbal2 : ¬ ((GetBalance w.bal).Available.Amount < a) := not_lt.2 hbal
  have hpos2 : ¬ (a ≤ 0) := not_le.2 hpos
  refine ⟨{ txType := .wager, amount := { Amount := a, Currency := engineCurrency },
            balanceBefore := w.bal.real,
            balanceAfter := w.bal.real.Sub { Amount := a, Currency := engineCurrency },
            status := .completed, reference := cid },
          { txType := .win, amount := { Amount := a, Currency := engineCurrency },
            balanceBefore := w.bal.real.Sub { Amount := a, Currency := engineCurrency },
            balanceAfter :=
              (w.bal.real.Sub { Amount := a, Currency := engineCurrency }).Add
                { Amount := a, Currency := engineCurrency },
            status := .completed, reference := cid },
          ?_, rfl, rfl, rfl, rfl, rfl, rfl⟩
  cases hgen : generateSlotOutcome draws with
  | mk res rem =>
    rw [hgen] at hout
    simp only at hout
    subst hout
    unfold Play
    rw [hs]
    simp only [hact, hg, hen, hmin2, hmax2, hbal2, ne_eq, not_true_eq_false,
      Bool.not_true, Bool.false_eq_true, if_false, or_self, ite_false, if_neg,
      not_false_eq_true]
    rw [PlaceWager, if_neg hpos2, if_neg hbal2]
    simp only
    rw [hgen]
    simp only
    rw [CreditWin, if_neg (by omega : ¬ (a < 0)), if_neg (by omega : ¬ (a = 0))]
    simp only [GetBalance, Money.Sub, Money.Add, World.mk.injEq, BalanceRow.mk.injEq,
      Money.mk.injEq, Prod.mk.injEq, List.append_assoc, List.cons_append,
      List.nil_append, and_true, true_and]
    have hcancel : w.bal.real.Amount - a + a = w.bal.real.Amount := by omega
    rw [hcancel]

/-- A world holding an active fortune-slots session and a funded balance. -/
def fundedWorld : World :=
  { session := some freshSession,
    bal := { real := { Amount := 1000, Currency := "USD" },
             bonus := { Amount := 0, Currency := "USD" } },
    txs := [], cycles := [] }

/-- Witness for claim C5: with an empty entropy stream outcome generation
fails, and Play on a funded world returns the failure having appended
exactly a wager transaction and a win-typed refund of the same amount. -/
theorem play_compensates_on_outcome_failure_witness :
    ∃ wagerTx refundTx : Transaction,
      Play fundedWorld 100 "cycle-1" [] =
        (.error (.outcomeFailed .entropyUnavailable),
         { fundedWorld with txs := fundedWorld.txs ++ [wagerTx, refundTx] }) ∧
      wagerTx.txType = .wager ∧ wagerTx.amount.Amount = 100 ∧
      wagerTx.reference = "cycle-1" ∧
      refundTx.txType = .win ∧ refundTx.amount.Amount = 100 ∧
      refundTx.reference = "cycle-1" :=
  play_compensates_on_outcome_failure fundedWorld freshSession fortuneSlotsGame
    100 "cycle-1" [] .entropyUnavailable rfl rfl (by decide) rfl (by decide) (by decide)
    (by decide) (by decide) rfl

end Rgs
